import Mathlib

/-!
# Verification of the email-SMTP-sender component

Shallow embedding of the core of `src/component.py` and `src/client.py`
(placeholder parsing, template validation, recipient allow-listing,
email building and the `send_emails` delivery loop) together with proofs
of the specification's testable properties.

Modelling conventions:
* Python strings are Lean `String`s (operated on via `String.data`,
  a `List Char`).
* Python `set(...)` of strings is modelled as a duplicate-free list in
  first-occurrence order (`pyset`).  CPython's set iteration order is
  hash-based and unspecified; first-occurrence order is one admissible
  determinisation, and no code path sorts it.
* Fallible Python code (raising exceptions) is modelled with
  `Except String`, the `String` being `str(e)` of the raised exception.
* External collaborators (the Jinja2 renderer, `json.loads`, disk reads
  and the SMTP transport) are parameters of the embedding (`Oracles`):
  the orchestrator's behaviour is proved for every behaviour of these
  collaborators.
-/

namespace EmailSender

/-! ## Python string primitives -/

/-- Characters removed by Python `str.strip()` (ASCII whitespace overapproximation
of the Unicode set; all inputs of interest are ASCII). -/
def pyWhitespace : List Char :=
  [' ', '\t', '\n', '\r', Char.ofNat 11, Char.ofNat 12]

/-- `str.strip(chars)`: remove leading and trailing characters drawn from `bad`. -/
def stripChars (bad : List Char) (s : String) : String :=
  ⟨((s.data.dropWhile (· ∈ bad)).reverse.dropWhile (· ∈ bad)).reverse⟩

/-- Python `str.strip()` (no argument): strip surrounding whitespace. -/
def pyStrip (s : String) : String := stripChars pyWhitespace s

/-- Python `"...".split(",")` on the character list: splitting on `,`,
`[] ↦ [""]` as in Python. -/
def splitCommaChars : List Char → List (List Char)
  | [] => [[]]
  | ',' :: rest => [] :: splitCommaChars rest
  | c :: rest =>
    match splitCommaChars rest with
    | s :: ss => (c :: s) :: ss
    | [] => [[c]]

/-- Python `email.split(",")`. -/
def pySplitComma (s : String) : List String :=
  (splitCommaChars s.data).map (fun cs => ⟨cs⟩)

/-- Python `sep.join(xs)`. -/
def joinSep (sep : String) : List String → String
  | [] => ""
  | [x] => x
  | x :: y :: xs => x ++ sep ++ joinSep sep (y :: xs)

/-- `set(xs)` for a list of strings: duplicate-free, keeping the first
occurrence of each element (iteration order of the Python set abstracted
as first-occurrence order; no code path depends on more than membership
except the unsorted `', '.join`). -/
def pysetAux (seen : List String) : List String → List String
  | [] => []
  | x :: xs => if x ∈ seen then pysetAux seen xs else x :: pysetAux (x :: seen) xs

def pyset (xs : List String) : List String := pysetAux [] xs

/-! ## Placeholder parser (`Component._parse_template_placeholders`)

Python source:
```
placeholders = re.findall(r'\x7b\x7b.*?\x7d\x7d', template_text)
placeholders = set([placeholder.strip('\x7b\x7d') for placeholder in placeholders])
```
The regex scan is embedded directly: starting an attempt at every
position from the left, a match begins at a double opening brace and
extends (non-greedily, `.` not crossing a newline) to the first double
closing brace; matches are non-overlapping, scanning resumes after each
match. -/

/-- From the characters following a double opening brace, find the shortest
newline-free prefix followed by a double closing brace (the non-greedy
completion of the regex).  Returns the inner content and the remainder
after the closing braces. -/
def findClose : List Char → Option (List Char × List Char)
  | '}' :: '}' :: rest => some ([], rest)
  | '\n' :: _ => none
  | c :: rest =>
    match findClose rest with
    | some (content, rest') => some (c :: content, rest')
    | none => none
  | [] => none

/-- Fuel-driven regex scan: returns the full matched substrings
(including the brace delimiters) of `re.findall(r'\x7b\x7b.*?\x7d\x7d', ·)`,
left to right, non-overlapping.  `fuel` bounds the number of scan steps;
`cs.length + 1` always suffices. -/
def scanPlaceholders : Nat → List Char → List (List Char)
  | 0, _ => []
  | _ + 1, [] => []
  | fuel + 1, '{' :: '{' :: rest =>
    match findClose rest with
    | some (content, rest') =>
      ('{' :: '{' :: (content ++ ['}', '}'])) :: scanPlaceholders fuel rest'
    | none => scanPlaceholders fuel ('{' :: rest)
  | fuel + 1, _ :: rest => scanPlaceholders fuel rest

/-- The regex matches of `re.findall(r'\x7b\x7b.*?\x7d\x7d', t)`. -/
def placeholderMatches (t : String) : List String :=
  (scanPlaceholders (t.data.length + 1) t.data).map (fun cs => ⟨cs⟩)

/-- `Component._parse_template_placeholders`: the matches, each stripped of
ALL leading/trailing brace characters (`.strip('\x7b\x7d')` — note: not just
the two-character delimiters, and no whitespace trimming), deduplicated
into a set. -/
def parse_template_placeholders (t : String) : List String :=
  pyset ((placeholderMatches t).map (stripChars ['{', '}']))

/-! ## Template validator (`Component._validate_template_text`) -/

/-- `set(template_placeholders) - set(columns)`, in set-iteration
(first-occurrence) order. -/
def missing_columns (t : String) (columns : List String) : List String :=
  (parse_template_placeholders t).filter (fun p => ¬ p ∈ columns)

/-- `Component._validate_template_text` with its default
`continue_on_error=False`: raises `UserException` naming the missing
placeholders if any, else returns. -/
def validate_template_text (t : String) (columns : List String) : Except String Unit :=
  if missing_columns t columns = [] then Except.ok ()
  else Except.error ("❌ - Missing columns: " ++ joinSep ", " (missing_columns t columns))

/-- The placeholder parser as the specification's words describe it:
the same regex scan, but each match has exactly the two two-character
delimiters removed and the surrounding whitespace (not braces) stripped. -/
def stripDelimsSpec (m : String) : String := ⟨(m.data.drop 2).dropLast.dropLast⟩

def parse_template_placeholders_spec (t : String) : List String :=
  pyset ((placeholderMatches t).map (fun m => pyStrip (stripDelimsSpec m)))

/-- Lexicographic (code-point) string order, as Python `sorted` uses on
`str` values. -/
def charListLe : List Char → List Char → Bool
  | [], _ => true
  | _ :: _, [] => false
  | a :: as, b :: bs => if a = b then charListLe as bs else decide (a.toNat < b.toNat)

def strLe (a b : String) : Bool := charListLe a.data b.data

/-- A list of names is in sorted order when every adjacent pair is ordered. -/
def sortedBy (le : String → String → Bool) : List String → Bool
  | [] => true
  | [_] => true
  | a :: b :: rest => le a b && sortedBy le (b :: rest)

/-! ## Recipient allow-list (`SMTPClient.check_email_mask`)

Python source builds, for each mask, the regex
`'^' + re.escape(mask).replace(r'\*', '.*') + '$'` and full-matches each
comma-separated, whitespace-stripped piece of the recipient string
against it: every mask character other than `*` is matched literally and
`*` matches zero or more characters, none of which may be a newline
(`.` in a Python regex does not match `\n`). -/

/-- Fuel-driven executable matcher for one mask against one address.
`fuel` bounds the number of steps; `ms.length + es.length + 1` suffices. -/
def maskMatchesAux : Nat → List Char → List Char → Bool
  | 0, _, _ => false
  | _ + 1, [], es => es.isEmpty
  | fuel + 1, m :: ms, es =>
    if m = '*' then
      maskMatchesAux fuel ms es ||
        (match es with
         | [] => false
         | e :: es' => decide (e ≠ '\n') && maskMatchesAux fuel (m :: ms) es')
    else
      match es with
      | [] => false
      | e :: es' => decide (m = e) && maskMatchesAux fuel ms es'

/-- One mask applied to one (already stripped) address. -/
def maskMatches (mask email : String) : Bool :=
  maskMatchesAux (mask.data.length + email.data.length + 1) mask.data email.data

/-- The per-address loop of `check_email_mask`: raises on the first
address matching no mask. -/
def checkEmailsLoop (wl : List String) : List String → Except String Unit
  | [] => Except.ok ()
  | e :: rest =>
    if wl.any (fun mask => maskMatches mask e) then checkEmailsLoop wl rest
    else Except.error ("Email '" ++ e ++ "' does not match any of the allowed masks.")

/-- `SMTPClient.check_email_mask`: split the recipient string on commas,
strip surrounding whitespace from each piece, and require every piece to
match at least one mask of the whitelist. -/
def check_email_mask (wl : List String) (email : String) : Except String Unit :=
  checkEmailsLoop wl ((pySplitComma email).map pyStrip)

/-- Declarative wildcard matching: `*` consumes zero or more non-newline
characters, every other mask character matches itself literally. -/
inductive GlobM : List Char → List Char → Prop
  | nil : GlobM [] []
  | lit {c : Char} {ms es : List Char} : c ≠ '*' → GlobM ms es → GlobM (c :: ms) (c :: es)
  | star_skip {ms es : List Char} : GlobM ms es → GlobM ('*' :: ms) es
  | star_take {c : Char} {ms es : List Char} :
      c ≠ '\n' → GlobM ('*' :: ms) es → GlobM ('*' :: ms) (c :: es)

/-- The claim's matching semantics as written (claim C4): the address is NOT
stripped, and `*` matches zero or more arbitrary characters (including
newlines).  Used only to exhibit the divergence from the code. -/
def specMaskMatchesAux : Nat → List Char → List Char → Bool
  | 0, _, _ => false
  | _ + 1, [], es => es.isEmpty
  | fuel + 1, m :: ms, es =>
    if m = '*' then
      specMaskMatchesAux fuel ms es ||
        (match es with
         | [] => false
         | _ :: es' => specMaskMatchesAux fuel (m :: ms) es')
    else
      match es with
      | [] => false
      | e :: es' => decide (m = e) && specMaskMatchesAux fuel ms es'

def claimAllows (wl : List String) (recipient : String) : Bool :=
  (pySplitComma recipient).all (fun addr =>
    wl.any (fun mask =>
      specMaskMatchesAux (mask.data.length + addr.data.length + 1) mask.data addr.data))

/-! ## Email building (`SMTPClient.build_email`)

Only the fields of `SMTPClient` that `build_email` and the delivery loop
consult are modelled; connection parameters belong to the transport
strategies, which are external collaborators (the send operation is an
oracle below). -/

structure SMTPClient where
  sender_email_address : String
  address_whitelist : List String
  disable_attachments : Bool

structure Email where
  From : String
  To : String
  Subject : String
  attachedFilenames : List String
deriving DecidableEq, Repr

/-- The attachment loop of `build_email`: read each file's bytes from
disk in map order and attach it.  Returns the attached filenames and the
paths read; a failing `open` raises.  (Paths read before a failure are
not tracked: no proved property consults events of a failing build.) -/
def readAttachments (readFile : String → Except String Unit) :
    List (String × String) → Except String (List String × List String)
  | [] => Except.ok ([], [])
  | (fn, path) :: rest =>
    match readFile path with
    | Except.error e => Except.error e
    | Except.ok () =>
      match readAttachments readFile rest with
      | Except.error e => Except.error e
      | Except.ok (names, paths) => Except.ok (fn :: names, path :: paths)

/-- `SMTPClient.build_email`: allow-list check when a whitelist is
configured, envelope assembly, and attachment of the files when the map
is non-empty and attachments are not disabled.  The plaintext/HTML MIME
parts carry the rendered bodies, which the orchestrator tracks
separately; they do not affect control flow here. -/
def build_email (c : SMTPClient) (recipient_email_address subject : String)
    (_rendered_plaintext_message : String) (_rendered_html_message : Option String)
    (attachments_paths_by_filename : List (String × String))
    (readFile : String → Except String Unit) : Except String (Email × List String) :=
  match (if c.address_whitelist ≠ [] then
           check_email_mask c.address_whitelist recipient_email_address
         else Except.ok ()) with
  | Except.error e => Except.error e
  | Except.ok () =>
    match (if attachments_paths_by_filename ≠ [] ∧ ¬ c.disable_attachments then
             readAttachments readFile attachments_paths_by_filename
           else Except.ok ([], [])) with
    | Except.error e => Except.error e
    | Except.ok (names, paths) =>
      Except.ok ({ From := c.sender_email_address, To := recipient_email_address,
                   Subject := subject, attachedFilenames := names }, paths)

/-! ## The delivery loop (`Component.send_emails`, lines 186-335)

The loop is embedded for the two supported input shapes: advanced
templating over a data table (`csv.DictReader` rows) and the basic
fixed-content path over a literal comma-separated recipient list.
The external collaborators — the Jinja2 renderer
(`Template(t).render(row)`), `json.loads` (restricted to lists of
strings), attachment-file opening and the transport's send operation
(indexed by row position, capturing per-send nondeterminism) — are
function parameters; every theorem quantifies over their behaviour. -/

/-- A recipient row: the `csv.DictReader` mapping column name ↦ value. -/
structure Row where
  cells : List (String × String)
deriving DecidableEq, Repr

/-- `row[k]`, as an optional lookup (`none` models a raised `KeyError`). -/
def Row.find? (r : Row) (k : String) : Option String :=
  (r.cells.find? (fun c => c.1 == k)).map (fun c => c.2)

/-- `str(KeyError(k))`: Python reprs the missing key in quotes. -/
def keyErrorMsg (k : String) : String := "'" ++ k ++ "'"

/-- `str(row_dict)`: the value the outer handler stores as
`recipient_email_address` when the recipient-column lookup itself raised
(the variable still holds the whole row).  Quote escaping inside cell
values is not modelled. -/
def pyStrOfRow (r : Row) : String :=
  "\x7b" ++ joinSep ", " (r.cells.map (fun c => "'" ++ c.1 ++ "': '" ++ c.2 ++ "'")) ++ "\x7d"

/-- `json.dumps(names)` with the default `", "` separator (escaping of
quotes inside filenames not modelled). -/
def jsonDumpsList (xs : List String) : String :=
  "[" ++ joinSep ", " (xs.map (fun s => "\"" ++ s ++ "\"")) ++ "]"

inductive SubjectSource
  | from_table (subject_column : String)
  | from_definition (subject_template_definition : String)
deriving DecidableEq, Repr

/-- Body templates: per-row columns (`from_table`) or a shared text
resolved once before the loop (`from_template_file` /
`from_template_definition`, whose file I/O happens before the loop and
outside this model).  The HTML component is consulted only when
`use_html_template` is set. -/
inductive BodySource
  | from_table (plaintext_template_column html_template_column : String)
  | shared (plaintext_template_text html_template_text : String)
deriving DecidableEq, Repr

structure AdvancedOptions where
  recipient_email_address_column : String
  subjectSource : SubjectSource
  bodySource : BodySource
  use_html_template : Bool
  all_attachments : Bool
  attachments_column : String

structure RunConfig where
  continue_on_error : Bool
  dry_run : Bool
  client : SMTPClient

/-- A prepared (built) message with the rendered content the ledger will
record. -/
structure Prepared where
  email : Email
  rendered_plaintext_message : String
  rendered_html_message : Option String
  custom_attachments : List (String × String)
deriving DecidableEq, Repr

/-- One `results.csv` row (`RESULT_TABLE_COLUMNS`). -/
structure LedgerRow where
  status : String
  recipient_email_address : String
  sender_email_address : String
  subject : String
  plaintext_message_body : String
  html_message_body : String
  attachment_filenames : String
  error_message : String
deriving DecidableEq, Repr

/-- Observable side effects of a run: attachment bytes read from disk
during message building, and transport send operations (with the
attachment paths handed to `send_email`, `none` when attachments are
disabled). -/
inductive Event
  | readAttachment (path : String)
  | send (recipient : String) (attachments_paths : Option (List String))
deriving DecidableEq, Repr

def Event.isSend : Event → Bool
  | Event.send _ _ => true
  | _ => false

def Event.isRead : Event → Bool
  | Event.readAttachment _ => true
  | _ => false

/-- Subject-template resolution (lines 242-244): per-row column read and
validation in `from_table` mode; the (pre-loop-validated) shared
definition otherwise. -/
def resolveSubjectText (adv : AdvancedOptions) (columns : List String) (row : Row) :
    Except String String :=
  match adv.subjectSource with
  | SubjectSource.from_definition t => Except.ok t
  | SubjectSource.from_table col =>
    match row.find? col with
    | none => Except.error (keyErrorMsg col)
    | some t =>
      match validate_template_text t columns with
      | Except.error e => Except.error e
      | Except.ok () => Except.ok t

/-- Lines 246-249: `try: rendered_subject = Template(t).render(row)
except Exception: rendered_subject = subject_template_text`. -/
def renderSubjectWithFallback (render : String → Row → Except String String)
    (t : String) (row : Row) : String :=
  match render t row with
  | Except.ok s => s
  | Except.error _ => t

/-- Body-template resolution (lines 251-257): per-row column reads and
validations in `from_table` mode (the HTML column only when enabled),
the pre-validated shared texts otherwise.  Returns the plaintext
template text and the HTML template text when HTML sending is on. -/
def resolveBodyTexts (adv : AdvancedOptions) (columns : List String) (row : Row) :
    Except String (String × Option String) :=
  match adv.bodySource with
  | BodySource.shared pt ht =>
    Except.ok (pt, if adv.use_html_template then some ht else none)
  | BodySource.from_table ptCol htCol =>
    match row.find? ptCol with
    | none => Except.error (keyErrorMsg ptCol)
    | some pt =>
      match validate_template_text pt columns with
      | Except.error e => Except.error e
      | Except.ok () =>
        if adv.use_html_template then
          match row.find? htCol with
          | none => Except.error (keyErrorMsg htCol)
          | some ht =>
            match validate_template_text ht columns with
            | Except.error e => Except.error e
            | Except.ok () => Except.ok (pt, some ht)
        else Except.ok (pt, none)

/-- The narrowing dict comprehension of lines 267-270,
`{fn: base[fn] for fn in json.loads(row[attachments_column])}`: every
listed name is looked up in the base map (`KeyError` on an unknown
name); a duplicated name keeps its first position, as in a Python dict. -/
def narrowAttachmentsAux (base : List (String × String)) (seen : List String) :
    List String → Except String (List (String × String))
  | [] => Except.ok []
  | fn :: rest =>
    match base.find? (fun c => c.1 == fn) with
    | none => Except.error (keyErrorMsg fn)
    | some pr =>
      match narrowAttachmentsAux base (fn :: seen) rest with
      | Except.error e => Except.error e
      | Except.ok tail => Except.ok (if fn ∈ seen then tail else pr :: tail)

def narrowAttachments (base : List (String × String)) (names : List String) :
    Except String (List (String × String)) :=
  narrowAttachmentsAux base [] names

/-- Lines 264-270: the attachment map for the current row — the base map
unless attachments are enabled and the source is `from_table`, in which
case it is narrowed to the JSON list in the row's attachments column. -/
def resolveAttachments (c : SMTPClient) (adv : AdvancedOptions)
    (jsonLoads : String → Except String (List String))
    (base : List (String × String)) (row : Row) :
    Except String (List (String × String)) :=
  if ¬ c.disable_attachments ∧ ¬ adv.all_attachments then
    match row.find? adv.attachments_column with
    | none => Except.error (keyErrorMsg adv.attachments_column)
    | some raw =>
      match jsonLoads raw with
      | Except.error e => Except.error e
      | Except.ok names => narrowAttachments base names
  else Except.ok base

/-- Lines 251-277 once the recipient and the rendered subject are known:
resolve and render the bodies, resolve the attachment map, build the
message. -/
def prepAdvancedBody (c : SMTPClient) (adv : AdvancedOptions) (columns : List String)
    (render : String → Row → Except String String)
    (jsonLoads : String → Except String (List String))
    (readFile : String → Except String Unit)
    (base : List (String × String)) (row : Row)
    (recipient rendered_subject : String) : Except String (Prepared × List String) :=
  match resolveBodyTexts adv columns row with
  | Except.error e => Except.error e
  | Except.ok (ptText, htText) =>
    match render ptText row with
    | Except.error e => Except.error e
    | Except.ok rendered_plaintext =>
      match (match htText with
             | some ht => (render ht row).map some
             | none => Except.ok none) with
      | Except.error e => Except.error e
      | Except.ok rendered_html =>
        match resolveAttachments c adv jsonLoads base row with
        | Except.error e => Except.error e
        | Except.ok custom =>
          match build_email c recipient rendered_subject rendered_plaintext
              rendered_html custom readFile with
          | Except.error e => Except.error e
          | Except.ok (em, reads) =>
            Except.ok ({ email := em, rendered_plaintext_message := rendered_plaintext,
                         rendered_html_message := rendered_html,
                         custom_attachments := custom }, reads)

/-- The per-row try-body for the advanced path (lines 232-277).  On
error it also yields the value the outer handler will use as
`recipient_email_address`: the stringified row dict if the recipient
lookup itself raised, the recipient address afterwards. -/
def prepAdvanced (c : SMTPClient) (adv : AdvancedOptions) (columns : List String)
    (render : String → Row → Except String String)
    (jsonLoads : String → Except String (List String))
    (readFile : String → Except String Unit)
    (base : List (String × String)) (row : Row) :
    Except (String × String) (Prepared × List String) :=
  match row.find? adv.recipient_email_address_column with
  | none => Except.error (keyErrorMsg adv.recipient_email_address_column, pyStrOfRow row)
  | some recipient =>
    match resolveSubjectText adv columns row with
    | Except.error e => Except.error (e, recipient)
    | Except.ok subjT =>
      match prepAdvancedBody c adv columns render jsonLoads readFile base row recipient
          (renderSubjectWithFallback render subjT row) with
      | Except.error e => Except.error (e, recipient)
      | Except.ok pr => Except.ok pr

/-- The per-row try-body for the basic path (lines 236-240 and 272-277):
the row is a bare address from the comma-split, subject and body are the
fixed configured texts, and the attachment map is the base map
unchanged. -/
def prepBasic (c : SMTPClient) (subject message_body : String)
    (readFile : String → Except String Unit)
    (base : List (String × String)) (recipient : String) :
    Except (String × String) (Prepared × List String) :=
  match build_email c recipient subject message_body none base readFile with
  | Except.error e => Except.error (e, recipient)
  | Except.ok (em, reads) =>
    Except.ok ({ email := em, rendered_plaintext_message := message_body,
                 rendered_html_message := none, custom_attachments := base }, reads)

/-- The ledger row written on the success path (lines 302-317): the
envelope fields, the rendered content (an absent or empty HTML body is
written as `''`), the JSON list of the attachment-map filenames (`[]`
when the map is empty) and the given status/error message. -/
def successLedgerRow (p : Prepared) (status error_message : String) : LedgerRow :=
  { status := status,
    recipient_email_address := p.email.To,
    sender_email_address := p.email.From,
    subject := p.email.Subject,
    plaintext_message_body := p.rendered_plaintext_message,
    html_message_body := p.rendered_html_message.getD "",
    attachment_filenames :=
      if p.custom_attachments ≠ [] then
        jsonDumpsList (p.custom_attachments.map (fun c => c.1))
      else "[]",
    error_message := error_message }

/-- The `general_error_row` template of lines 47-54 updated as in lines
322-327. -/
def general_error_row (sender recipient error_message : String) : LedgerRow :=
  { status := "ERROR",
    recipient_email_address := recipient,
    sender_email_address := sender,
    subject := "",
    plaintext_message_body := "",
    html_message_body := "",
    attachment_filenames := "",
    error_message := error_message }

/-- The `for row in reader` loop (lines 230-330), generic in the per-row
try-body `prepFn`.  `i` is the row position, indexing the transport
oracle.  Returns the ledger rows written and the observable events in
order.  Note the stop condition of line 318 tests the *message*
(`if error_message and not continue_on_error`), so a send failure whose
message is empty does not stop the loop even with `continue_on_error`
off; the pre-send failure handler (line 329) tests only the flag. -/
def sendLoop {α : Type} (cfg : RunConfig)
    (prepFn : α → Except (String × String) (Prepared × List String))
    (send : Nat → Except String Unit) : List α → Nat → List LedgerRow × List Event
  | [], _ => ([], [])
  | r :: rest, i =>
    match prepFn r with
    | Except.error (msg, recip) =>
      let entry := general_error_row cfg.client.sender_email_address recip msg
      if cfg.continue_on_error then
        let next := sendLoop cfg prepFn send rest (i + 1)
        (entry :: next.1, next.2)
      else ([entry], [])
    | Except.ok (p, reads) =>
      let readEvents := reads.map Event.readAttachment
      if cfg.dry_run then
        let next := sendLoop cfg prepFn send rest (i + 1)
        (successLedgerRow p "OK" "" :: next.1, readEvents ++ next.2)
      else
        let attachments_paths : Option (List String) :=
          if cfg.client.disable_attachments then none
          else some (p.custom_attachments.map (fun c => c.2))
        let sendEv := Event.send p.email.To attachments_paths
        match send i with
        | Except.ok () =>
          let next := sendLoop cfg prepFn send rest (i + 1)
          (successLedgerRow p "OK" "" :: next.1, readEvents ++ sendEv :: next.2)
        | Except.error e =>
          if e ≠ "" ∧ ¬ cfg.continue_on_error then
            ([successLedgerRow p "ERROR" e], readEvents ++ [sendEv])
          else
            let next := sendLoop cfg prepFn send rest (i + 1)
            (successLedgerRow p "ERROR" e :: next.1, readEvents ++ sendEv :: next.2)

/-- The two supported input shapes of a run. -/
inductive RunInput
  | advanced (adv : AdvancedOptions) (columns : List String) (rows : List Row)
  | basic (subject message_body : String) (recipients : List String)

/-- `Component.send_emails`: the pre-loop validation of shared subject /
body templates (lines 203-223; a `UserException` there aborts the run
before any row) followed by the row loop. -/
def send_emails (cfg : RunConfig)
    (render : String → Row → Except String String)
    (jsonLoads : String → Except String (List String))
    (readFile : String → Except String Unit)
    (sendResult : Nat → Except String Unit)
    (base : List (String × String)) :
    RunInput → Except String (List LedgerRow × List Event)
  | RunInput.advanced adv columns rows =>
    match (match adv.subjectSource with
           | SubjectSource.from_definition t => validate_template_text t columns
           | SubjectSource.from_table _ => Except.ok ()) with
    | Except.error e => Except.error e
    | Except.ok () =>
      match (match adv.bodySource with
             | BodySource.shared pt ht =>
               (match validate_template_text pt columns with
                | Except.error e => Except.error e
                | Except.ok () =>
                  if adv.use_html_template then validate_template_text ht columns
                  else Except.ok ())
             | BodySource.from_table _ _ => Except.ok ()) with
      | Except.error e => Except.error e
      | Except.ok () =>
        Except.ok (sendLoop cfg
          (prepAdvanced cfg.client adv columns render jsonLoads readFile base)
          sendResult rows 0)
  | RunInput.basic subject message_body recipients =>
    Except.ok (sendLoop cfg (prepBasic cfg.client subject message_body readFile base)
      sendResult recipients 0)

/-- An event consistent with globally disabled attachments (claim C6): not a disk
read, and a send handed `None` for its attachment paths. -/
def eventDisabledOk : Event → Bool
  | Event.readAttachment _ => false
  | Event.send _ attachments_paths => attachments_paths.isNone

/-- The ledger segment an all-successful block of rows produces
(claim C3):
`okLedger P i0 n` is the `OK` entries of rows `i0, …, i0+n-1`. -/
def okLedger (P : Nat → Prepared) : Nat → Nat → List LedgerRow
  | _, 0 => []
  | i0, n + 1 => successLedgerRow (P i0) "OK" "" :: okLedger P (i0 + 1) n

/-! ## Theorems -/

theorem mem_pysetAux {seen xs : List String} {a : String} :
    a ∈ pysetAux seen xs ↔ a ∈ xs ∧ a ∉ seen := by
  induction xs generalizing seen with
  | nil => simp [pysetAux]
  | cons x xs ih =>
    by_cases hx : x ∈ seen
    · simp only [pysetAux, if_pos hx, ih, List.mem_cons]
      constructor
      · rintro ⟨h1, h2⟩; exact ⟨Or.inr h1, h2⟩
      · rintro ⟨h1 | h1, h2⟩
        · exact absurd (h1 ▸ hx) h2
        · exact ⟨h1, h2⟩
    · simp only [pysetAux, if_neg hx, List.mem_cons, ih, List.mem_cons]
      constructor
      · rintro (rfl | ⟨h1, h2⟩)
        · exact ⟨Or.inl rfl, hx⟩
        · exact ⟨Or.inr h1, fun h => h2 (Or.inr h)⟩
      · rintro ⟨rfl | h1, h2⟩
        · exact Or.inl rfl
        · by_cases hax : a = x
          · exact Or.inl hax
          · exact Or.inr ⟨h1, fun h => by
              rcases h with h' | h'
              · exact hax h'
              · exact h2 h'⟩

theorem mem_pyset {xs : List String} {a : String} : a ∈ pyset xs ↔ a ∈ xs := by
  simp [pyset, mem_pysetAux]

theorem pysetAux_nodup (seen : List String) (xs : List String) :
    (pysetAux seen xs).Nodup := by
  induction xs generalizing seen with
  | nil => simp [pysetAux]
  | cons x xs ih =>
    by_cases hx : x ∈ seen
    · simpa [pysetAux, if_pos hx] using ih seen
    · simp only [pysetAux, if_neg hx, List.nodup_cons]
      refine ⟨fun hmem => ?_, ih (x :: seen)⟩
      exact (mem_pysetAux.mp hmem).2 (List.mem_cons_self _ _)

theorem pyset_nodup (xs : List String) : (pyset xs).Nodup := pysetAux_nodup [] xs

/-! ## Claims C1, C5, C8 -/

/-- C1: for every template text `t` and column set `columns`, validation
succeeds iff every extracted placeholder is among the columns; when it
fails, the reported names are exactly (the comma-join of) the
placeholder set minus the column set. -/
theorem C1_validation_iff_subset (t : String) (columns : List String) :
    (validate_template_text t columns = Except.ok () ↔
      ∀ p ∈ parse_template_placeholders t, p ∈ columns) ∧
    (∀ e, validate_template_text t columns = Except.error e →
      e = "❌ - Missing columns: " ++ joinSep ", " (missing_columns t columns)) ∧
    (∀ p, p ∈ missing_columns t columns ↔
      p ∈ parse_template_placeholders t ∧ p ∉ columns) := by
  refine ⟨⟨?_, ?_⟩, ?_, ?_⟩
  · intro hok p hp
    by_contra hpc
    have hmem : p ∈ missing_columns t columns := by
      simp [missing_columns, List.mem_filter, hp, hpc]
    unfold validate_template_text at hok
    by_cases h : missing_columns t columns = []
    · rw [h] at hmem
      exact absurd hmem (List.not_mem_nil p)
    · rw [if_neg h] at hok
      exact Except.noConfusion hok
  · intro hall
    have h : missing_columns t columns = [] := by
      unfold missing_columns
      rw [List.filter_eq_nil_iff]
      intro p hp
      simp [hall p hp]
    unfold validate_template_text
    rw [if_pos h]
  · intro e he
    unfold validate_template_text at he
    by_cases h : missing_columns t columns = []
    · rw [if_pos h] at he
      exact Except.noConfusion he
    · rw [if_neg h] at he
      exact (Except.error.inj he).symm
  · intro p
    simp [missing_columns, List.mem_filter]

/-- Witness for C1 at concrete inputs. -/
theorem C1_validation_iff_subset_witness :
    validate_template_text "Hi {{name}}" ["name"] = Except.ok () ∧
    ("missing" ∈ missing_columns "{{missing}}" ["name"]) :=
  ⟨(C1_validation_iff_subset "Hi {{name}}" ["name"]).1.mpr (by decide),
   ((C1_validation_iff_subset "{{missing}}" ["name"]).2.2 "missing").mpr (by decide)⟩

/-- C5 counterexample: the code strips brace characters but NOT the
surrounding whitespace of a placeholder name, so on `"{{ name }}"` it
extracts `" name "` where the claim's procedure extracts `"name"`. -/
theorem C5_parser_counterexample :
    parse_template_placeholders "{{ name }}" = [" name "] ∧
    parse_template_placeholders_spec "{{ name }}" = ["name"] ∧
    "name" ∉ parse_template_placeholders "{{ name }}" := by
  refine ⟨rfl, rfl, by decide⟩

/-- C5 (amended): the parser returns the deduplicated set of the
non-overlapping non-greedy `\x7b\x7b...\x7d\x7d` matches (whose inner text may
not span a newline), each stripped of ALL leading and trailing brace
characters — with no whitespace trimming. -/
theorem C5_parser_amended (t : String) :
    (parse_template_placeholders t).Nodup ∧
    ∀ s, s ∈ parse_template_placeholders t ↔
      ∃ m ∈ placeholderMatches t, s = stripChars ['{', '}'] m := by
  refine ⟨pyset_nodup _, fun s => ?_⟩
  simp only [parse_template_placeholders, mem_pyset, List.mem_map]
  constructor
  · rintro ⟨m, hm, rfl⟩; exact ⟨m, hm, rfl⟩
  · rintro ⟨m, hm, rfl⟩; exact ⟨m, hm, rfl⟩

/-- Witness for C5's amended membership characterisation. -/
theorem C5_parser_amended_witness :
    " name " ∈ parse_template_placeholders "{{ name }}" :=
  ((C5_parser_amended "{{ name }}").2 " name ").mpr ⟨"{{ name }}", by decide, by decide⟩

/-- C8 counterexample: the error message joins the missing set in set
iteration order without sorting; for template `"{{b}}{{a}}"` with no
columns it reports `b, a`, which is not in sorted order. -/
theorem C8_unsorted_counterexample :
    validate_template_text "{{b}}{{a}}" [] =
      Except.error "❌ - Missing columns: b, a" ∧
    missing_columns "{{b}}{{a}}" [] = ["b", "a"] ∧
    sortedBy strLe ["b", "a"] = false :=
  ⟨rfl, rfl, rfl⟩

/-- C8 (amended): when validation fails, the error message enumerates
every missing placeholder name (each exactly once, none dropped), in
set-iteration order — not necessarily sorted. -/
theorem C8_error_enumerates_all (t : String) (columns : List String)
    (h : missing_columns t columns ≠ []) :
    validate_template_text t columns =
      Except.error ("❌ - Missing columns: " ++ joinSep ", " (missing_columns t columns)) ∧
    (missing_columns t columns).Nodup ∧
    (∀ p, p ∈ missing_columns t columns ↔
      p ∈ parse_template_placeholders t ∧ p ∉ columns) := by
  refine ⟨?_, ?_, ?_⟩
  · unfold validate_template_text
    simp [if_neg h]
  · exact (pyset_nodup _).filter _
  · intro p
    simp [missing_columns, List.mem_filter]

/-- Witness for C8's amended claim. -/
theorem C8_error_enumerates_all_witness :
    validate_template_text "{{b}}{{a}}" [] =
      Except.error ("❌ - Missing columns: " ++
        joinSep ", " (missing_columns "{{b}}{{a}}" [])) ∧
    (missing_columns "{{b}}{{a}}" []).Nodup :=
  ⟨(C8_error_enumerates_all "{{b}}{{a}}" [] (by decide)).1,
   (C8_error_enumerates_all "{{b}}{{a}}" [] (by decide)).2.1⟩

theorem maskMatchesAux_iff :
    ∀ (fuel : Nat) (ms es : List Char), ms.length + es.length < fuel →
      (maskMatchesAux fuel ms es = true ↔ GlobM ms es) := by
  intro fuel
  induction fuel with
  | zero =>
    intro ms es h
    exact absurd h (by omega)
  | succ fuel ih =>
    intro ms es h
    match ms with
    | [] =>
      cases es with
      | nil =>
        simp only [maskMatchesAux, List.isEmpty_nil, true_iff]
        exact GlobM.nil
      | cons e es' =>
        simp only [maskMatchesAux, List.isEmpty_cons]
        constructor
        · intro hf
          exact absurd hf (by simp)
        · intro hg
          cases hg
    | m :: ms' =>
      have h1 : ms'.length + es.length < fuel := by
        simp only [List.length_cons] at h
        omega
      by_cases hm : m = '*'
      · subst hm
        cases es with
        | nil =>
          have heq : maskMatchesAux (fuel + 1) ('*' :: ms') [] =
              (maskMatchesAux fuel ms' [] || false) := rfl
          rw [heq, Bool.or_false]
          constructor
          · intro hskip
            exact GlobM.star_skip ((ih ms' [] h1).mp hskip)
          · intro hg
            cases hg with
            | star_skip hg' => exact (ih ms' [] h1).mpr hg'
        | cons e es' =>
          have heq : maskMatchesAux (fuel + 1) ('*' :: ms') (e :: es') =
              (maskMatchesAux fuel ms' (e :: es') ||
                (decide (e ≠ '\n') && maskMatchesAux fuel ('*' :: ms') es')) := rfl
          have h2 : ('*' :: ms').length + es'.length < fuel := by
            simp only [List.length_cons] at h ⊢
            omega
          rw [heq, Bool.or_eq_true, Bool.and_eq_true, decide_eq_true_eq]
          constructor
          · rintro (hskip | ⟨hne, htake⟩)
            · exact GlobM.star_skip ((ih ms' (e :: es') h1).mp hskip)
            · exact GlobM.star_take hne ((ih _ es' h2).mp htake)
          · intro hg
            cases hg with
            | lit hne hg' => exact absurd rfl hne
            | star_skip hg' => exact Or.inl ((ih ms' (e :: es') h1).mpr hg')
            | star_take hne hg' => exact Or.inr ⟨hne, (ih _ es' h2).mpr hg'⟩
      · cases es with
        | nil =>
          have heq : maskMatchesAux (fuel + 1) (m :: ms') [] = false := by
            simp only [maskMatchesAux, if_neg hm]
          rw [heq]
          constructor
          · intro hf
            exact absurd hf (by simp)
          · intro hg
            cases hg with
            | star_skip hg' => exact absurd rfl hm
        | cons e es' =>
          have heq : maskMatchesAux (fuel + 1) (m :: ms') (e :: es') =
              (decide (m = e) && maskMatchesAux fuel ms' es') := by
            simp only [maskMatchesAux, if_neg hm]
          have h2 : ms'.length + es'.length < fuel := by
            simp only [List.length_cons] at h
            omega
          rw [heq, Bool.and_eq_true, decide_eq_true_eq]
          constructor
          · rintro ⟨rfl, hrest⟩
            exact GlobM.lit hm ((ih ms' es' h2).mp hrest)
          · intro hg
            cases hg with
            | lit hne hg' => exact ⟨rfl, (ih ms' es' h2).mpr hg'⟩
            | star_skip hg' => exact absurd rfl hm
            | star_take hne hg' => exact absurd rfl hm

theorem maskMatches_iff (mask a : String) :
    maskMatches mask a = true ↔ GlobM mask.data a.data :=
  maskMatchesAux_iff _ mask.data a.data (by omega)

theorem checkEmailsLoop_ok_iff (wl : List String) (es : List String) :
    checkEmailsLoop wl es = Except.ok () ↔
      ∀ e ∈ es, ∃ mask ∈ wl, GlobM mask.data e.data := by
  induction es with
  | nil => simp [checkEmailsLoop]
  | cons e rest ih =>
    by_cases hmatch : wl.any (fun mask => maskMatches mask e) = true
    · simp only [checkEmailsLoop, if_pos hmatch, ih, List.mem_cons]
      constructor
      · intro hall a ha
        rcases ha with rfl | ha
        · rcases List.any_eq_true.mp hmatch with ⟨mask, hmask, hm⟩
          exact ⟨mask, hmask, (maskMatches_iff mask a).mp hm⟩
        · exact hall a ha
      · intro hall a ha
        exact hall a (Or.inr ha)
    · simp only [checkEmailsLoop, if_neg hmatch]
      constructor
      · intro hcontr
        exact Except.noConfusion hcontr
      · intro hall
        exfalso
        rcases hall e (List.mem_cons_self e rest) with ⟨mask, hmask, hg⟩
        exact hmatch (List.any_eq_true.mpr ⟨mask, hmask, (maskMatches_iff mask e).mpr hg⟩)

/-! ## Claim C4 -/

/-- C4 counterexample: for the allow-list `["a@x.com"]` and recipient
`" a@x.com"` (leading space), no pattern matches the entire address, so
the claim's check fails, yet the code strips whitespace around each
comma-separated piece first and accepts it. -/
theorem C4_allowlist_counterexample :
    check_email_mask ["a@x.com"] " a@x.com" = Except.ok () ∧
    claimAllows ["a@x.com"] " a@x.com" = false :=
  ⟨rfl, rfl⟩

/-- C4 (amended): for every non-empty allow-list, the check succeeds iff
every comma-separated piece of the recipient string, once stripped of
surrounding whitespace, is fully matched by some pattern — `*` matching
zero or more non-newline characters, every other character literally;
and the executable matcher agrees with that declarative semantics. -/
theorem C4_allowlist_amended (wl : List String) (email : String) (_hwl : wl ≠ []) :
    (check_email_mask wl email = Except.ok () ↔
      ∀ a ∈ (pySplitComma email).map pyStrip, ∃ mask ∈ wl, GlobM mask.data a.data) ∧
    (∀ mask a : String, maskMatches mask a = true ↔ GlobM mask.data a.data) := by
  refine ⟨?_, maskMatches_iff⟩
  exact checkEmailsLoop_ok_iff wl _

/-- Witness for C4's amended claim. -/
theorem C4_allowlist_amended_witness :
    check_email_mask ["*@example.com"] "user@example.com, admin@example.com" =
      Except.ok () :=
  (C4_allowlist_amended ["*@example.com"]
      "user@example.com, admin@example.com" (by decide)).1.mpr (by
    intro a ha
    have h1 : (pySplitComma "user@example.com, admin@example.com").map pyStrip =
        ["user@example.com", "admin@example.com"] := rfl
    rw [h1] at ha
    simp only [List.mem_cons, List.mem_singleton, List.not_mem_nil, or_false] at ha
    refine ⟨"*@example.com", List.mem_singleton.mpr rfl, ?_⟩
    rcases ha with rfl | rfl
    · exact (maskMatches_iff "*@example.com" "user@example.com").mp rfl
    · exact (maskMatches_iff "*@example.com" "admin@example.com").mp rfl)

/-! ## Claim C9 -/

/-- C9: when the configured allow-list is empty, `build_email` performs
no recipient check: every recipient address is accepted (shown outright
when the attachment stage is trivially successful), and whether building
succeeds never depends on the recipient address, so
`RecipientNotAllowedError` is unreachable. -/
theorem C9_empty_whitelist_no_check (c : SMTPClient) (subject pt : String)
    (html : Option String) (amap : List (String × String))
    (readFile : String → Except String Unit)
    (hwl : c.address_whitelist = []) :
    (∀ recipient, amap = [] ∨ c.disable_attachments = true →
      build_email c recipient subject pt html amap readFile =
        Except.ok ({ From := c.sender_email_address, To := recipient,
                     Subject := subject, attachedFilenames := [] }, [])) ∧
    (∀ r₁ r₂, (build_email c r₁ subject pt html amap readFile).isOk =
              (build_email c r₂ subject pt html amap readFile).isOk) := by
  have hskip : ∀ r, (if c.address_whitelist ≠ [] then
      check_email_mask c.address_whitelist r else Except.ok ()) = Except.ok () := by
    intro r
    rw [if_neg (by simp [hwl])]
  constructor
  · intro recipient hattach
    have hcond : ¬ (amap ≠ [] ∧ ¬ c.disable_attachments) := by
      rcases hattach with rfl | hdis
      · simp
      · simp [hdis]
    unfold build_email
    rw [hskip recipient, if_neg hcond]
  · intro r₁ r₂
    unfold build_email
    rw [hskip r₁, hskip r₂]
    cases (if amap ≠ [] ∧ ¬ c.disable_attachments then
             readAttachments readFile amap
           else Except.ok ([], [])) with
    | error e => rfl
    | ok v => rfl

/-- Witness for C9: a recipient matching no conceivable pattern is
accepted when the whitelist is empty. -/
theorem C9_empty_whitelist_no_check_witness :
    build_email { sender_email_address := "s@x.com", address_whitelist := [],
                  disable_attachments := false } "nomatch@other.org" "Subj" "body" none
        [] (fun _ => Except.ok ()) =
      Except.ok ({ From := "s@x.com", To := "nomatch@other.org", Subject := "Subj",
                   attachedFilenames := [] }, []) :=
  (C9_empty_whitelist_no_check
      { sender_email_address := "s@x.com", address_whitelist := [],
        disable_attachments := false } "Subj" "body" none [] (fun _ => Except.ok ())
      rfl).1 "nomatch@other.org" (Or.inl rfl)

/-! ## Claim C2 -/

@[simp] theorem Event.isSend_send (r : String) (ap : Option (List String)) :
    (Event.send r ap).isSend = true := rfl

@[simp] theorem Event.isSend_read (p : String) :
    (Event.readAttachment p).isSend = false := rfl

@[simp] theorem Event.isRead_send (r : String) (ap : Option (List String)) :
    (Event.send r ap).isRead = false := rfl

@[simp] theorem Event.isRead_read (p : String) :
    (Event.readAttachment p).isRead = true := rfl

@[simp] theorem filter_read_events (reads : List String) :
    (reads.map Event.readAttachment).filter (fun e => !e.isSend) =
      reads.map Event.readAttachment := by
  induction reads with
  | nil => rfl
  | cons a l ih => simp [List.filter, ih]

/-- The loop in dry-run mode equals the loop in wet mode under an
always-succeeding transport, with the send events erased. -/
theorem sendLoop_dry_eq {α : Type} (cfg : RunConfig)
    (prepFn : α → Except (String × String) (Prepared × List String))
    (send : Nat → Except String Unit) (rows : List α) (i : Nat) :
    sendLoop { cfg with dry_run := true } prepFn send rows i =
      ((sendLoop { cfg with dry_run := false } prepFn (fun _ => Except.ok ()) rows i).1,
       (sendLoop { cfg with dry_run := false } prepFn (fun _ => Except.ok ()) rows i).2.filter
         (fun e => !e.isSend)) := by
  induction rows generalizing i with
  | nil => rfl
  | cons r rest ih =>
    cases hp : prepFn r with
    | error pr =>
      obtain ⟨msg, recip⟩ := pr
      cases hcb : cfg.continue_on_error with
      | true =>
        simp only [hcb] at ih
        simp [sendLoop, hp, hcb, ih (i + 1)]
      | false =>
        simp [sendLoop, hp, hcb]
    | ok pr =>
      obtain ⟨p, reads⟩ := pr
      simp [sendLoop, hp, ih (i + 1), List.filter_append, List.filter_cons]

/-- C2 (amended): for every input and every collaborator behaviour, the
`dry_run=true` ledger (and its non-send events) equals what the
`dry_run=false` run would produce if every transport send succeeded —
in particular a row that fails before the send stage is recorded as an
`ERROR` row in the dry run too — and the dry run performs no send
operation at all. -/
theorem C2_dry_run_amended (cfg : RunConfig)
    (render : String → Row → Except String String)
    (jsonLoads : String → Except String (List String))
    (readFile : String → Except String Unit)
    (sendResult : Nat → Except String Unit)
    (base : List (String × String)) (input : RunInput) :
    (send_emails { cfg with dry_run := true } render jsonLoads readFile sendResult
        base input =
      (send_emails { cfg with dry_run := false } render jsonLoads readFile
          (fun _ => Except.ok ()) base input).map
        (fun r => (r.1, r.2.filter (fun e => !e.isSend)))) ∧
    (∀ ledger events,
      send_emails { cfg with dry_run := true } render jsonLoads readFile sendResult
          base input = Except.ok (ledger, events) →
      events.filter Event.isSend = []) := by
  have hmain : send_emails { cfg with dry_run := true } render jsonLoads readFile
      sendResult base input =
      (send_emails { cfg with dry_run := false } render jsonLoads readFile
          (fun _ => Except.ok ()) base input).map
        (fun r => (r.1, r.2.filter (fun e => !e.isSend))) := by
    cases input with
    | advanced adv columns rows =>
      simp only [send_emails]
      cases (match adv.subjectSource with
             | SubjectSource.from_definition t => validate_template_text t columns
             | SubjectSource.from_table _ => Except.ok ()) with
      | error e => rfl
      | ok u =>
        cases u
        cases (match adv.bodySource with
               | BodySource.shared pt ht =>
                 (match validate_template_text pt columns with
                  | Except.error e => Except.error e
                  | Except.ok () =>
                    if adv.use_html_template then validate_template_text ht columns
                    else Except.ok ())
               | BodySource.from_table _ _ => Except.ok ()) with
        | error e => rfl
        | ok u =>
          cases u
          exact congrArg Except.ok (sendLoop_dry_eq cfg _ sendResult rows 0)
    | basic subject message_body recipients =>
      simp only [send_emails]
      exact congrArg Except.ok (sendLoop_dry_eq cfg _ sendResult recipients 0)
  refine ⟨hmain, ?_⟩
  intro ledger events hok
  rw [hmain] at hok
  cases hwet : send_emails { cfg with dry_run := false } render jsonLoads readFile
      (fun _ => Except.ok ()) base input with
  | error e =>
    rw [hwet] at hok
    exact Except.noConfusion hok
  | ok r =>
    rw [hwet] at hok
    simp only [Except.map, Except.ok.injEq] at hok
    have hev : events = r.2.filter (fun e => !e.isSend) := congrArg Prod.snd hok.symm
    subst hev
    rw [List.filter_filter]
    apply List.filter_eq_nil_iff.mpr
    intro a _
    cases a with
    | readAttachment p => simp [Event.isSend]
    | send r' ap => simp [Event.isSend]

/-- Witness for C2's amended claim at a concrete run. -/
theorem C2_dry_run_amended_witness :
    send_emails
        { continue_on_error := true, dry_run := true,
          client := { sender_email_address := "s@x.com", address_whitelist := [],
                      disable_attachments := false } }
        (fun t _ => Except.ok t) (fun _ => Except.error "no json")
        (fun _ => Except.ok ()) (fun _ => Except.error "boom") []
        (RunInput.basic "Subj" "Body" ["u@x.com"]) =
      (send_emails
        { continue_on_error := true, dry_run := false,
          client := { sender_email_address := "s@x.com", address_whitelist := [],
                      disable_attachments := false } }
        (fun t _ => Except.ok t) (fun _ => Except.error "no json")
        (fun _ => Except.ok ()) (fun _ => Except.ok ()) []
        (RunInput.basic "Subj" "Body" ["u@x.com"])).map
        (fun r => (r.1, r.2.filter (fun e => !e.isSend))) :=
  (C2_dry_run_amended
    { continue_on_error := true, dry_run := true,
      client := { sender_email_address := "s@x.com", address_whitelist := [],
                  disable_attachments := false } }
    (fun t _ => Except.ok t) (fun _ => Except.error "no json")
    (fun _ => Except.ok ()) (fun _ => Except.error "boom") []
    (RunInput.basic "Subj" "Body" ["u@x.com"])).1

/-- C2 counterexample: a recipient rejected by the allow-list fails
before the send stage, so even the dry run records an `ERROR` row —
refuting "every row's status is OK" (and hence row-for-row equality up
to status alone) for `dry_run=true`. -/
theorem C2_dry_run_counterexample :
    send_emails
        { continue_on_error := true, dry_run := true,
          client := { sender_email_address := "s@x.com",
                      address_whitelist := ["*@x.com"],
                      disable_attachments := false } }
        (fun t _ => Except.ok t) (fun _ => Except.error "no json")
        (fun _ => Except.ok ()) (fun _ => Except.ok ()) []
        (RunInput.basic "Subj" "Body" ["u@y.com"]) =
      Except.ok ([{ status := "ERROR", recipient_email_address := "u@y.com",
                    sender_email_address := "s@x.com", subject := "",
                    plaintext_message_body := "", html_message_body := "",
                    attachment_filenames := "",
                    error_message :=
                      "Email 'u@y.com' does not match any of the allowed masks." }],
                 []) ∧
    ("ERROR" : String) ≠ "OK" :=
  ⟨rfl, by decide⟩

/-! ## Claim C6 -/

theorem build_email_disabled (c : SMTPClient) (hdis : c.disable_attachments = true)
    (recipient subject pt : String) (html : Option String)
    (amap : List (String × String)) (readFile : String → Except String Unit) :
    ∀ em reads, build_email c recipient subject pt html amap readFile =
      Except.ok (em, reads) → em.attachedFilenames = [] ∧ reads = [] := by
  intro em reads h
  unfold build_email at h
  cases hchk : (if c.address_whitelist ≠ [] then
      check_email_mask c.address_whitelist recipient else Except.ok ()) with
  | error e =>
    rw [hchk] at h
    exact Except.noConfusion h
  | ok u =>
    cases u
    simp only [hchk] at h
    rw [if_neg (by simp [hdis])] at h
    cases h
    exact ⟨rfl, rfl⟩

theorem build_email_fields (c : SMTPClient) (recipient subject pt : String)
    (html : Option String) (amap : List (String × String))
    (readFile : String → Except String Unit) :
    ∀ em reads, build_email c recipient subject pt html amap readFile =
      Except.ok (em, reads) →
      em.From = c.sender_email_address ∧ em.To = recipient ∧ em.Subject = subject := by
  intro em reads h
  unfold build_email at h
  cases hchk : (if c.address_whitelist ≠ [] then
      check_email_mask c.address_whitelist recipient else Except.ok ()) with
  | error e =>
    rw [hchk] at h
    exact Except.noConfusion h
  | ok u =>
    cases u
    simp only [hchk] at h
    cases hat : (if amap ≠ [] ∧ ¬ c.disable_attachments then
        readAttachments readFile amap else Except.ok ([], [])) with
    | error e =>
      rw [hat] at h
      exact Except.noConfusion h
    | ok pr =>
      obtain ⟨names, paths⟩ := pr
      simp only [hat] at h
      cases h
      exact ⟨rfl, rfl, rfl⟩

theorem resolveAttachments_disabled (c : SMTPClient) (adv : AdvancedOptions)
    (jsonLoads : String → Except String (List String))
    (base : List (String × String)) (row : Row)
    (hdis : c.disable_attachments = true) :
    resolveAttachments c adv jsonLoads base row = Except.ok base := by
  unfold resolveAttachments
  rw [if_neg (by simp [hdis])]

theorem prepAdvancedBody_disabled (c : SMTPClient) (adv : AdvancedOptions)
    (columns : List String) (render : String → Row → Except String String)
    (jsonLoads : String → Except String (List String))
    (readFile : String → Except String Unit)
    (base : List (String × String)) (row : Row) (recipient rendered_subject : String)
    (hdis : c.disable_attachments = true) :
    ∀ p reads, prepAdvancedBody c adv columns render jsonLoads readFile base row
        recipient rendered_subject = Except.ok (p, reads) →
      reads = [] ∧ p.custom_attachments = base ∧ p.email.attachedFilenames = [] := by
  intro p reads h
  unfold prepAdvancedBody at h
  cases hbt : resolveBodyTexts adv columns row with
  | error e =>
    rw [hbt] at h
    exact Except.noConfusion h
  | ok pr =>
    obtain ⟨ptText, htText⟩ := pr
    simp only [hbt] at h
    cases hrp : render ptText row with
    | error e =>
      rw [hrp] at h
      exact Except.noConfusion h
    | ok rendered_plaintext =>
      simp only [hrp] at h
      cases hrh : (match htText with
                   | some ht => (render ht row).map some
                   | none => Except.ok none) with
      | error e =>
        rw [hrh] at h
        exact Except.noConfusion h
      | ok rendered_html =>
        simp only [hrh] at h
        simp only [resolveAttachments_disabled c adv jsonLoads base row hdis] at h
        cases hbe : build_email c recipient rendered_subject rendered_plaintext
            rendered_html base readFile with
        | error e =>
          rw [hbe] at h
          exact Except.noConfusion h
        | ok pr2 =>
          obtain ⟨em, reads2⟩ := pr2
          simp only [hbe] at h
          cases h
          obtain ⟨hem, hreads⟩ := build_email_disabled c hdis recipient rendered_subject
            rendered_plaintext rendered_html base readFile _ _ hbe
          exact ⟨hreads, rfl, hem⟩

theorem prepAdvanced_disabled (c : SMTPClient) (adv : AdvancedOptions)
    (columns : List String) (render : String → Row → Except String String)
    (jsonLoads : String → Except String (List String))
    (readFile : String → Except String Unit)
    (base : List (String × String)) (row : Row)
    (hdis : c.disable_attachments = true) :
    ∀ p reads, prepAdvanced c adv columns render jsonLoads readFile base row =
        Except.ok (p, reads) →
      reads = [] ∧ p.custom_attachments = base ∧ p.email.attachedFilenames = [] := by
  intro p reads h
  unfold prepAdvanced at h
  cases hrec : row.find? adv.recipient_email_address_column with
  | none =>
    rw [hrec] at h
    exact Except.noConfusion h
  | some recipient =>
    simp only [hrec] at h
    cases hst : resolveSubjectText adv columns row with
    | error e =>
      rw [hst] at h
      exact Except.noConfusion h
    | ok subjT =>
      simp only [hst] at h
      cases hb : prepAdvancedBody c adv columns render jsonLoads readFile base row
          recipient (renderSubjectWithFallback render subjT row) with
      | error e =>
        rw [hb] at h
        exact Except.noConfusion h
      | ok pr =>
        obtain ⟨p', reads'⟩ := pr
        simp only [hb] at h
        cases h
        exact prepAdvancedBody_disabled c adv columns render jsonLoads readFile base row
          recipient _ hdis _ _ hb

theorem prepBasic_disabled (c : SMTPClient) (subject message_body : String)
    (readFile : String → Except String Unit)
    (base : List (String × String)) (recipient : String)
    (hdis : c.disable_attachments = true) :
    ∀ p reads, prepBasic c subject message_body readFile base recipient =
        Except.ok (p, reads) →
      reads = [] ∧ p.custom_attachments = base ∧ p.email.attachedFilenames = [] := by
  intro p reads h
  unfold prepBasic at h
  cases hbe : build_email c recipient subject message_body none base readFile with
  | error e =>
    rw [hbe] at h
    exact Except.noConfusion h
  | ok pr =>
    obtain ⟨em, reads2⟩ := pr
    simp only [hbe] at h
    cases h
    obtain ⟨hem, hreads⟩ := build_email_disabled c hdis recipient subject message_body
      none base readFile _ _ hbe
    exact ⟨hreads, rfl, hem⟩

theorem sendLoop_disabled_events {α : Type} (cfg : RunConfig)
    (prepFn : α → Except (String × String) (Prepared × List String))
    (send : Nat → Except String Unit)
    (hdis : cfg.client.disable_attachments = true)
    (hprep : ∀ r p reads, prepFn r = Except.ok (p, reads) → reads = []) :
    ∀ (rows : List α) (i : Nat),
      (sendLoop cfg prepFn send rows i).2.all eventDisabledOk = true := by
  intro rows
  induction rows with
  | nil => intro i; rfl
  | cons r rest ih =>
    intro i
    cases hp : prepFn r with
    | error pr =>
      obtain ⟨msg, recip⟩ := pr
      simp only [sendLoop, hp]
      split
      · simpa using ih (i + 1)
      · simp
    | ok pr =>
      obtain ⟨p, reads⟩ := pr
      have hreads : reads = [] := hprep r p reads hp
      subst hreads
      simp only [sendLoop, hp]
      split
      · simpa using ih (i + 1)
      · cases hs : send i with
        | ok u =>
          cases u
          simpa [hdis, eventDisabledOk] using ih (i + 1)
        | error e =>
          simp only [hs]
          split
          · simp [hdis, eventDisabledOk]
          · simpa [hdis, eventDisabledOk] using ih (i + 1)

theorem send_emails_advanced_ok (cfg : RunConfig)
    (render : String → Row → Except String String)
    (jsonLoads : String → Except String (List String))
    (readFile : String → Except String Unit)
    (sendResult : Nat → Except String Unit)
    (base : List (String × String)) (adv : AdvancedOptions)
    (columns : List String) (rows : List Row)
    (res : List LedgerRow × List Event)
    (h : send_emails cfg render jsonLoads readFile sendResult base
        (RunInput.advanced adv columns rows) = Except.ok res) :
    res = sendLoop cfg (prepAdvanced cfg.client adv columns render jsonLoads readFile base)
        sendResult rows 0 := by
  simp only [send_emails] at h
  cases hsv : (match adv.subjectSource with
               | SubjectSource.from_definition t => validate_template_text t columns
               | SubjectSource.from_table _ => Except.ok ()) with
  | error e =>
    rw [hsv] at h
    exact Except.noConfusion h
  | ok u =>
    cases u
    simp only [hsv] at h
    cases hbv : (match adv.bodySource with
                 | BodySource.shared pt ht =>
                   (match validate_template_text pt columns with
                    | Except.error e => Except.error e
                    | Except.ok () =>
                      if adv.use_html_template then validate_template_text ht columns
                      else Except.ok ())
                 | BodySource.from_table _ _ => Except.ok ()) with
    | error e =>
      rw [hbv] at h
      exact Except.noConfusion h
    | ok u =>
      cases u
      simp only [hbv] at h
      exact (Except.ok.inj h).symm

theorem send_emails_basic_eq (cfg : RunConfig)
    (render : String → Row → Except String String)
    (jsonLoads : String → Except String (List String))
    (readFile : String → Except String Unit)
    (sendResult : Nat → Except String Unit)
    (base : List (String × String)) (subject message_body : String)
    (recipients : List String) :
    send_emails cfg render jsonLoads readFile sendResult base
        (RunInput.basic subject message_body recipients) =
      Except.ok (sendLoop cfg (prepBasic cfg.client subject message_body readFile base)
        sendResult recipients 0) := rfl

/-- C6 (amended): when attachments are globally disabled, the per-row
narrowing is skipped — the map used for each row stays the full base
map (whose filenames the ledger still records), NOT the empty map — but
no attachment file is read from disk, nothing is attached to any built
message, and every transport send receives `None` as its attachment
paths, regardless of the per-row attachments configuration. -/
theorem C6_disable_attachments_amended (cfg : RunConfig)
    (render : String → Row → Except String String)
    (jsonLoads : String → Except String (List String))
    (readFile : String → Except String Unit)
    (sendResult : Nat → Except String Unit)
    (base : List (String × String)) (input : RunInput)
    (hdis : cfg.client.disable_attachments = true) :
    (∀ ledger events, send_emails cfg render jsonLoads readFile sendResult base input =
        Except.ok (ledger, events) → events.all eventDisabledOk = true) ∧
    (∀ adv row, resolveAttachments cfg.client adv jsonLoads base row = Except.ok base) ∧
    (∀ recipient subject pt html amap em reads,
      build_email cfg.client recipient subject pt html amap readFile =
        Except.ok (em, reads) →
      em.attachedFilenames = [] ∧ reads = []) := by
  refine ⟨?_, fun adv row => resolveAttachments_disabled cfg.client adv jsonLoads base row hdis,
         fun recipient subject pt html amap =>
           build_email_disabled cfg.client hdis recipient subject pt html amap readFile⟩
  intro ledger events h
  cases input with
  | advanced adv columns rows =>
    have hres := send_emails_advanced_ok cfg render jsonLoads readFile sendResult base
      adv columns rows (ledger, events) h
    have hev : events = (sendLoop cfg
        (prepAdvanced cfg.client adv columns render jsonLoads readFile base)
        sendResult rows 0).2 := congrArg Prod.snd hres
    rw [hev]
    exact sendLoop_disabled_events cfg _ sendResult hdis
      (fun r p reads hpr =>
        (prepAdvanced_disabled cfg.client adv columns render jsonLoads readFile base r
          hdis p reads hpr).1) rows 0
  | basic subject message_body recipients =>
    have hres := Except.ok.inj (send_emails_basic_eq cfg render jsonLoads readFile
      sendResult base subject message_body recipients ▸ h)
    have hev : events = (sendLoop cfg
        (prepBasic cfg.client subject message_body readFile base)
        sendResult recipients 0).2 := congrArg Prod.snd hres.symm
    rw [hev]
    exact sendLoop_disabled_events cfg _ sendResult hdis
      (fun r p reads hpr =>
        (prepBasic_disabled cfg.client subject message_body readFile base r
          hdis p reads hpr).1) recipients 0

/-- C6 counterexample: with attachments disabled by policy and a
non-empty base map, the row's map is the full base map — its filenames
are recorded in the ledger (`["a.pdf"]`), which an empty map would have
recorded as `[]`.  (No file is read and the send receives `None`, per
the amended claim.) -/
theorem C6_disable_attachments_counterexample :
    send_emails
        { continue_on_error := true, dry_run := false,
          client := { sender_email_address := "s@x.com", address_whitelist := [],
                      disable_attachments := true } }
        (fun t _ => Except.ok t) (fun _ => Except.error "unused")
        (fun _ => Except.ok ()) (fun _ => Except.ok ())
        [("a.pdf", "/data/a.pdf")]
        (RunInput.advanced
          { recipient_email_address_column := "email",
            subjectSource := SubjectSource.from_definition "S",
            bodySource := BodySource.shared "B" "",
            use_html_template := false,
            all_attachments := false,
            attachments_column := "att" }
          ["email"] [⟨[("email", "u@x")]⟩]) =
      Except.ok ([{ status := "OK", recipient_email_address := "u@x",
                    sender_email_address := "s@x.com", subject := "S",
                    plaintext_message_body := "B", html_message_body := "",
                    attachment_filenames := "[\"a.pdf\"]", error_message := "" }],
                 [Event.send "u@x" none]) ∧
    ("[\"a.pdf\"]" : String) ≠ "[]" :=
  ⟨rfl, by decide⟩

/-- Witness for C6's amended claim at the same concrete disabled run. -/
theorem C6_disable_attachments_amended_witness :
    ([Event.send "u@x" none] : List Event).all eventDisabledOk = true :=
  (C6_disable_attachments_amended
      { continue_on_error := true, dry_run := false,
        client := { sender_email_address := "s@x.com", address_whitelist := [],
                    disable_attachments := true } }
      (fun t _ => Except.ok t) (fun _ => Except.error "unused")
      (fun _ => Except.ok ()) (fun _ => Except.ok ())
      [("a.pdf", "/data/a.pdf")]
      (RunInput.advanced
        { recipient_email_address_column := "email",
          subjectSource := SubjectSource.from_definition "S",
          bodySource := BodySource.shared "B" "",
          use_html_template := false,
          all_attachments := false,
          attachments_column := "att" }
        ["email"] [⟨[("email", "u@x")]⟩]) rfl).1
    [{ status := "OK", recipient_email_address := "u@x",
       sender_email_address := "s@x.com", subject := "S",
       plaintext_message_body := "B", html_message_body := "",
       attachment_filenames := "[\"a.pdf\"]", error_message := "" }]
    [Event.send "u@x" none] rfl

/-! ## Claim C7 -/

theorem prepAdvancedBody_fields (c : SMTPClient) (adv : AdvancedOptions)
    (columns : List String) (render : String → Row → Except String String)
    (jsonLoads : String → Except String (List String))
    (readFile : String → Except String Unit)
    (base : List (String × String)) (row : Row) (recipient rendered_subject : String) :
    ∀ p reads, prepAdvancedBody c adv columns render jsonLoads readFile base row
        recipient rendered_subject = Except.ok (p, reads) →
      p.email.Subject = rendered_subject ∧ p.email.To = recipient ∧
      p.email.From = c.sender_email_address := by
  intro p reads h
  unfold prepAdvancedBody at h
  cases hbt : resolveBodyTexts adv columns row with
  | error e =>
    rw [hbt] at h
    exact Except.noConfusion h
  | ok pr =>
    obtain ⟨ptText, htText⟩ := pr
    simp only [hbt] at h
    cases hrp : render ptText row with
    | error e =>
      rw [hrp] at h
      exact Except.noConfusion h
    | ok rendered_plaintext =>
      simp only [hrp] at h
      cases hrh : (match htText with
                   | some ht => (render ht row).map some
                   | none => Except.ok none) with
      | error e =>
        rw [hrh] at h
        exact Except.noConfusion h
      | ok rendered_html =>
        simp only [hrh] at h
        cases hra : resolveAttachments c adv jsonLoads base row with
        | error e =>
          rw [hra] at h
          exact Except.noConfusion h
        | ok custom =>
          simp only [hra] at h
          cases hbe : build_email c recipient rendered_subject rendered_plaintext
              rendered_html custom readFile with
          | error e =>
            rw [hbe] at h
            exact Except.noConfusion h
          | ok pr2 =>
            obtain ⟨em, reads2⟩ := pr2
            simp only [hbe] at h
            cases h
            obtain ⟨hf, ht, hs⟩ := build_email_fields c recipient rendered_subject
              rendered_plaintext rendered_html custom readFile _ _ hbe
            exact ⟨hs, ht, hf⟩

/-- C7: if rendering the subject template against the row raises (any
exception), the subject used for the message is the unrendered template
text verbatim, the rest of the row's processing is exactly as if the
subject had rendered to that text (so the failure never aborts the
row), and a successfully built message carries the verbatim text as its
subject. -/
theorem C7_subject_render_fallback (c : SMTPClient) (adv : AdvancedOptions)
    (columns : List String) (render : String → Row → Except String String)
    (jsonLoads : String → Except String (List String))
    (readFile : String → Except String Unit)
    (base : List (String × String)) (row : Row) (t e recipient : String)
    (hres : resolveSubjectText adv columns row = Except.ok t)
    (hrend : render t row = Except.error e)
    (hrec : row.find? adv.recipient_email_address_column = some recipient) :
    renderSubjectWithFallback render t row = t ∧
    prepAdvanced c adv columns render jsonLoads readFile base row =
      (match prepAdvancedBody c adv columns render jsonLoads readFile base row
          recipient t with
       | Except.error e' => Except.error (e', recipient)
       | Except.ok pr => Except.ok pr) ∧
    (∀ p reads, prepAdvanced c adv columns render jsonLoads readFile base row =
        Except.ok (p, reads) → p.email.Subject = t) := by
  have hfb : renderSubjectWithFallback render t row = t := by
    unfold renderSubjectWithFallback
    rw [hrend]
  refine ⟨hfb, ?_, ?_⟩
  · simp only [prepAdvanced, hrec, hres, hfb]
  · intro p reads h
    simp only [prepAdvanced, hrec, hres, hfb] at h
    cases hb : prepAdvancedBody c adv columns render jsonLoads readFile base row
        recipient t with
    | error e' =>
      rw [hb] at h
      exact Except.noConfusion h
    | ok pr =>
      obtain ⟨p', reads'⟩ := pr
      simp only [hb] at h
      cases h
      exact (prepAdvancedBody_fields c adv columns render jsonLoads readFile base row
        recipient t _ _ hb).1

/-- Witness for C7: a renderer that always raises leaves the literal
subject text in place. -/
theorem C7_subject_render_fallback_witness :
    renderSubjectWithFallback (fun _ _ => Except.error "boom") "Hello \x7b\x7bname"
        ⟨[("email", "u@x")]⟩ = "Hello \x7b\x7bname" :=
  (C7_subject_render_fallback
      { sender_email_address := "s@x.com", address_whitelist := [],
        disable_attachments := false }
      { recipient_email_address_column := "email",
        subjectSource := SubjectSource.from_definition "Hello \x7b\x7bname",
        bodySource := BodySource.shared "B" "",
        use_html_template := false,
        all_attachments := true,
        attachments_column := "att" }
      ["email"] (fun _ _ => Except.error "boom") (fun _ => Except.error "unused")
      (fun _ => Except.ok ()) [] ⟨[("email", "u@x")]⟩ "Hello \x7b\x7bname" "boom" "u@x"
      rfl rfl rfl).1

/-! ## Claim C10 -/

theorem prepAdvanced_error_recipient (c : SMTPClient) (adv : AdvancedOptions)
    (columns : List String) (render : String → Row → Except String String)
    (jsonLoads : String → Except String (List String))
    (readFile : String → Except String Unit)
    (base : List (String × String)) (row : Row) (msg recip addr : String)
    (hprep : prepAdvanced c adv columns render jsonLoads readFile base row =
      Except.error (msg, recip))
    (hrec : row.find? adv.recipient_email_address_column = some addr) :
    recip = addr := by
  simp only [prepAdvanced, hrec] at hprep
  cases hst : resolveSubjectText adv columns row with
  | error e =>
    simp only [hst] at hprep
    cases hprep
    rfl
  | ok subjT =>
    simp only [hst] at hprep
    cases hb : prepAdvancedBody c adv columns render jsonLoads readFile base row addr
        (renderSubjectWithFallback render subjT row) with
    | error e =>
      simp only [hb] at hprep
      cases hprep
      rfl
    | ok pr =>
      simp only [hb] at hprep
      exact Except.noConfusion hprep

/-- C10: a row whose processing raises before the ledger write (and
after the recipient address was resolved) is recorded as the general
error row: status `ERROR`, the caught message, the configured sender,
the row's recipient address, and empty strings for subject, plaintext
body, HTML body and attachment filenames. -/
theorem C10_general_error_row (cfg : RunConfig) (adv : AdvancedOptions)
    (columns : List String) (render : String → Row → Except String String)
    (jsonLoads : String → Except String (List String))
    (readFile : String → Except String Unit)
    (send : Nat → Except String Unit)
    (base : List (String × String)) (row : Row) (rest : List Row) (i : Nat)
    (msg recip addr : String)
    (hprep : prepAdvanced cfg.client adv columns render jsonLoads readFile base row =
      Except.error (msg, recip))
    (hrec : row.find? adv.recipient_email_address_column = some addr) :
    recip = addr ∧
    (sendLoop cfg (prepAdvanced cfg.client adv columns render jsonLoads readFile base)
        send (row :: rest) i).1.head? =
      some { status := "ERROR", recipient_email_address := addr,
             sender_email_address := cfg.client.sender_email_address,
             subject := "", plaintext_message_body := "", html_message_body := "",
             attachment_filenames := "", error_message := msg } := by
  have hra : recip = addr := prepAdvanced_error_recipient cfg.client adv columns render
    jsonLoads readFile base row msg recip addr hprep hrec
  subst hra
  refine ⟨rfl, ?_⟩
  simp only [sendLoop, hprep]
  split
  · rfl
  · rfl

/-- Witness for C10: a run whose subject column is missing from the row
writes the general error row carrying the `KeyError` message and the
resolved recipient. -/
theorem C10_general_error_row_witness :
    (sendLoop
        { continue_on_error := true, dry_run := false,
          client := { sender_email_address := "s@x.com", address_whitelist := [],
                      disable_attachments := false } }
        (prepAdvanced
          { sender_email_address := "s@x.com", address_whitelist := [],
            disable_attachments := false }
          { recipient_email_address_column := "email",
            subjectSource := SubjectSource.from_table "subj",
            bodySource := BodySource.shared "B" "",
            use_html_template := false,
            all_attachments := true,
            attachments_column := "att" }
          ["email", "subj"] (fun t _ => Except.ok t) (fun _ => Except.error "unused")
          (fun _ => Except.ok ()) [])
        (fun _ => Except.ok ()) [⟨[("email", "u@x")]⟩] 0).1.head? =
      some { status := "ERROR", recipient_email_address := "u@x",
             sender_email_address := "s@x.com",
             subject := "", plaintext_message_body := "", html_message_body := "",
             attachment_filenames := "", error_message := "'subj'" } :=
  (C10_general_error_row
      { continue_on_error := true, dry_run := false,
        client := { sender_email_address := "s@x.com", address_whitelist := [],
                    disable_attachments := false } }
      { recipient_email_address_column := "email",
        subjectSource := SubjectSource.from_table "subj",
        bodySource := BodySource.shared "B" "",
        use_html_template := false,
        all_attachments := true,
        attachments_column := "att" }
      ["email", "subj"] (fun t _ => Except.ok t) (fun _ => Except.error "unused")
      (fun _ => Except.ok ()) (fun _ => Except.ok ()) [] ⟨[("email", "u@x")]⟩ [] 0
      "'subj'" "u@x" "u@x" rfl rfl).2

/-! ## Claim C3 -/

theorem okLedger_length (P : Nat → Prepared) :
    ∀ (n i0 : Nat), (okLedger P i0 n).length = n := by
  intro n
  induction n with
  | zero => intro i0; rfl
  | succ n ih => intro i0; simp [okLedger, ih (i0 + 1)]

theorem okLedger_get? (P : Nat → Prepared) :
    ∀ (n i0 j : Nat), j < n →
      (okLedger P i0 n).get? j = some (successLedgerRow (P (i0 + j)) "OK" "") := by
  intro n
  induction n with
  | zero =>
    intro i0 j hj
    exact absurd hj (by omega)
  | succ n ih =>
    intro i0 j hj
    cases j with
    | zero => simp [okLedger]
    | succ j =>
      have hj' : j < n := by omega
      have h := ih (i0 + 1) j hj'
      have hidx : i0 + (j + 1) = i0 + 1 + j := by omega
      rw [hidx]
      simp only [okLedger, List.get?_cons_succ]
      exact h

/-- Processing an all-successful block of rows appends their `OK`
entries and continues. -/
theorem sendLoop_ok_block {α : Type} (cfg : RunConfig)
    (prepFn : α → Except (String × String) (Prepared × List String))
    (send : Nat → Except String Unit)
    (hdry : cfg.dry_run = false) :
    ∀ (pre : List α) (rest : List α) (i0 : Nat)
      (P : Nat → Prepared) (R : Nat → List String),
      (∀ j, (hj : j < pre.length) →
        prepFn (pre.get ⟨j, hj⟩) = Except.ok (P (i0 + j), R (i0 + j))) →
      (∀ j, j < pre.length → send (i0 + j) = Except.ok ()) →
      (sendLoop cfg prepFn send (pre ++ rest) i0).1 =
        okLedger P i0 pre.length ++ (sendLoop cfg prepFn send rest (i0 + pre.length)).1 := by
  intro pre
  induction pre with
  | nil =>
    intro rest i0 P R hok hsend
    simp [okLedger]
  | cons r pre' ih =>
    intro rest i0 P R hok hsend
    have h0 : prepFn r = Except.ok (P i0, R i0) := by
      have h := hok 0 (by simp)
      simpa using h
    have hs0 : send i0 = Except.ok () := by
      have h := hsend 0 (by simp)
      simpa using h
    have hrec := ih rest (i0 + 1) P R
      (fun j hj => by
        have h := hok (j + 1) (by simpa using Nat.succ_lt_succ hj)
        have hidx : i0 + (j + 1) = i0 + 1 + j := by omega
        simpa [hidx] using h)
      (fun j hj => by
        have h := hsend (j + 1) (by simpa using Nat.succ_lt_succ hj)
        have hidx : i0 + (j + 1) = i0 + 1 + j := by omega
        rw [hidx] at h
        exact h)
    simp only [List.cons_append, sendLoop, h0, hdry, Bool.false_eq_true, if_false, hs0,
      List.append_eq]
    simp only [List.length_cons, okLedger, List.cons_append, List.cons.injEq, true_and]
    have hidx : i0 + (pre'.length + 1) = i0 + 1 + pre'.length := by omega
    rw [hrec, hidx]

/-- C3 (amended): over `N` rows of which only row `k` fails (either its
preparation raises, or its transport send raises with message `msgk`):
with `continue_on_error` on, the ledger has exactly `N` rows, row `k`
has status `ERROR` and every other row is its ordinary `OK` entry; with
`continue_on_error` off, the run stops after row `k` with exactly `k+1`
ledger rows (0-based; the claim's rows 1..k) — PROVIDED the failure is a
preparation failure or its message is non-empty, because the stop
condition of line 318 tests the message, not the status. -/
theorem C3_continue_on_error_amended {α : Type} (cfg : RunConfig)
    (prepFn : α → Except (String × String) (Prepared × List String))
    (send : Nat → Except String Unit) (rows : List α) (k : Nat)
    (P : Nat → Prepared) (R : Nat → List String) (msgk recipk : String)
    (hk : k < rows.length)
    (hdry : cfg.dry_run = false)
    (hok : ∀ j, (hj : j < rows.length) → j ≠ k →
      prepFn (rows.get ⟨j, hj⟩) = Except.ok (P j, R j))
    (hsend : ∀ j, j < rows.length → j ≠ k → send j = Except.ok ())
    (hfail : prepFn (rows.get ⟨k, hk⟩) = Except.error (msgk, recipk) ∨
      (prepFn (rows.get ⟨k, hk⟩) = Except.ok (P k, R k) ∧ send k = Except.error msgk)) :
    (cfg.continue_on_error = true →
      (sendLoop cfg prepFn send rows 0).1.length = rows.length ∧
      (∀ j, j < rows.length → j ≠ k →
        (sendLoop cfg prepFn send rows 0).1.get? j =
          some (successLedgerRow (P j) "OK" "")) ∧
      Option.map LedgerRow.status ((sendLoop cfg prepFn send rows 0).1.get? k) =
        some "ERROR") ∧
    (cfg.continue_on_error = false →
      (prepFn (rows.get ⟨k, hk⟩) = Except.error (msgk, recipk) ∨ msgk ≠ "") →
      (sendLoop cfg prepFn send rows 0).1.length = k + 1 ∧
      (∀ j, j < k →
        (sendLoop cfg prepFn send rows 0).1.get? j =
          some (successLedgerRow (P j) "OK" "")) ∧
      Option.map LedgerRow.status ((sendLoop cfg prepFn send rows 0).1.get? k) =
        some "ERROR") := by
  simp only [List.get_eq_getElem] at hfail
  -- split the row list around row k
  have hsplit : rows = rows.take k ++ rows.get ⟨k, hk⟩ :: rows.drop (k + 1) := by
    conv_lhs => rw [← List.take_append_drop k rows]
    congr 1
    rw [List.drop_eq_getElem_cons hk]
    rfl
  have htklen : (rows.take k).length = k := by
    simp [List.length_take]
    omega
  have hdrlen : (rows.drop (k + 1)).length = rows.length - (k + 1) := by
    simp [List.length_drop]
  -- the all-ok prefix before row k
  have hpre : ∀ (tail : List α),
      (sendLoop cfg prepFn send (rows.take k ++ tail) 0).1 =
        okLedger P 0 k ++ (sendLoop cfg prepFn send tail k).1 := by
    intro tail
    have h := sendLoop_ok_block cfg prepFn send hdry (rows.take k) tail 0 P R
      (fun j hj => by
        have hjk : j < k := by omega
        have hjr : j < rows.length := by omega
        have hget : (rows.take k).get ⟨j, hj⟩ = rows.get ⟨j, hjr⟩ := by
          simp [List.get_take]
        rw [hget]
        have h := hok j hjr (by omega)
        simpa using h)
      (fun j hj => by
        have hjk : j < k := by omega
        have h := hsend j (by omega) (by omega)
        simpa using h)
    simpa [htklen] using h
  -- the all-ok suffix after row k
  have hpost : (sendLoop cfg prepFn send (rows.drop (k + 1)) (k + 1)).1 =
      okLedger P (k + 1) (rows.length - (k + 1)) := by
    have h := sendLoop_ok_block cfg prepFn send hdry (rows.drop (k + 1)) [] (k + 1) P R
      (fun j hj => by
        have hjr : k + 1 + j < rows.length := by
          rw [hdrlen] at hj
          omega
        have hget : (rows.drop (k + 1)).get ⟨j, hj⟩ = rows.get ⟨k + 1 + j, hjr⟩ := by
          simp [List.get_drop]
        rw [hget]
        exact hok (k + 1 + j) hjr (by omega))
      (fun j hj => by
        have hjr : k + 1 + j < rows.length := by
          rw [hdrlen] at hj
          omega
        exact hsend (k + 1 + j) hjr (by omega))
    simpa [hdrlen, sendLoop] using h
  constructor
  · -- continue_on_error = true
    intro hc
    -- the entry written for row k
    have hstep : ∃ entry : LedgerRow, entry.status = "ERROR" ∧
        (sendLoop cfg prepFn send (rows.get ⟨k, hk⟩ :: rows.drop (k + 1)) k).1 =
          entry :: (sendLoop cfg prepFn send (rows.drop (k + 1)) (k + 1)).1 := by
      rcases hfail with hperr | ⟨hpok, hserr⟩
      · refine ⟨general_error_row cfg.client.sender_email_address recipk msgk, rfl, ?_⟩
        simp only [sendLoop]
        split
        · rename_i msg recip heq
          have hpr : (msgk, recipk) = (msg, recip) := Except.error.inj (hperr.symm.trans heq)
          cases hpr
          simp [hc]
        · rename_i p reads heq
          exact Except.noConfusion (hperr.symm.trans heq)
      · refine ⟨successLedgerRow (P k) "ERROR" msgk, rfl, ?_⟩
        simp only [sendLoop, hdry, Bool.false_eq_true, if_false, hserr, hc]
        split
        · rename_i msg recip heq
          exact Except.noConfusion (hpok.symm.trans heq)
        · rename_i p reads heq
          have hpr : (P k, R k) = (p, reads) := Except.ok.inj (hpok.symm.trans heq)
          cases hpr
          simp
    obtain ⟨entry, hes, hstep⟩ := hstep
    have hled : (sendLoop cfg prepFn send rows 0).1 =
        okLedger P 0 k ++ entry :: okLedger P (k + 1) (rows.length - (k + 1)) := by
      conv_lhs => rw [hsplit]
      rw [hpre, hstep, hpost]
    rw [hled]
    refine ⟨?_, ?_, ?_⟩
    · simp [okLedger_length]
      omega
    · intro j hj hjk
      rcases Nat.lt_or_ge j k with hlt | hge
      · rw [List.get?_append]
        · have h := okLedger_get? P k 0 j hlt
          simpa using h
        · rw [okLedger_length]
          exact hlt
      · have hgt : k < j := by omega
        rw [List.get?_append_right (by rw [okLedger_length]; omega)]
        rw [okLedger_length]
        have hj' : j - k = (j - k - 1) + 1 := by omega
        rw [hj', List.get?_cons_succ]
        have h := okLedger_get? P (rows.length - (k + 1)) (k + 1) (j - k - 1) (by omega)
        have hidx : k + 1 + (j - k - 1) = j := by omega
        rw [hidx] at h
        exact h
    · rw [List.get?_append_right (by rw [okLedger_length])]
      rw [okLedger_length, Nat.sub_self, List.get?_cons_zero]
      simp [hes]
  · -- continue_on_error = false: the run stops at row k
    intro hc hstop
    simp only [List.get_eq_getElem] at hstop
    have hstep : ∃ entry : LedgerRow, entry.status = "ERROR" ∧
        (sendLoop cfg prepFn send (rows.get ⟨k, hk⟩ :: rows.drop (k + 1)) k).1 =
          [entry] := by
      rcases hfail with hperr | ⟨hpok, hserr⟩
      · refine ⟨general_error_row cfg.client.sender_email_address recipk msgk, rfl, ?_⟩
        simp only [sendLoop]
        split
        · rename_i msg recip heq
          have hpr : (msgk, recipk) = (msg, recip) := Except.error.inj (hperr.symm.trans heq)
          cases hpr
          simp [hc]
        · rename_i p reads heq
          exact Except.noConfusion (hperr.symm.trans heq)
      · have hmsg : msgk ≠ "" := by
          rcases hstop with hperr | hmsg
          · rw [hperr] at hpok
            exact Except.noConfusion hpok
          · exact hmsg
        refine ⟨successLedgerRow (P k) "ERROR" msgk, rfl, ?_⟩
        simp only [sendLoop, hdry, Bool.false_eq_true, if_false, hserr, hc]
        split
        · rename_i msg recip heq
          exact Except.noConfusion (hpok.symm.trans heq)
        · rename_i p reads heq
          have hpr : (P k, R k) = (p, reads) := Except.ok.inj (hpok.symm.trans heq)
          cases hpr
          simp [hmsg]
    obtain ⟨entry, hes, hstep⟩ := hstep
    have hled : (sendLoop cfg prepFn send rows 0).1 = okLedger P 0 k ++ [entry] := by
      conv_lhs => rw [hsplit]
      rw [hpre, hstep]
    rw [hled]
    refine ⟨?_, ?_, ?_⟩
    · simp [okLedger_length]
    · intro j hj
      rw [List.get?_append]
      · have h := okLedger_get? P k 0 j hj
        simpa using h
      · rw [okLedger_length]
        exact hj
    · rw [List.get?_append_right (by rw [okLedger_length])]
      rw [okLedger_length, Nat.sub_self, List.get?_cons_zero]
      simp [hes]

/-- C3 counterexample: with `continue_on_error` disabled, a send failure
whose exception message is empty (`str(e) == ''`) marks the row `ERROR`
but does NOT stop the run — the stop condition tests the message, not
the status — so a 2-row run whose first row fails this way writes 2
ledger rows, not 1 as the claim requires. -/
theorem C3_continue_on_error_counterexample :
    send_emails
        { continue_on_error := false, dry_run := false,
          client := { sender_email_address := "s@x.com", address_whitelist := [],
                      disable_attachments := false } }
        (fun t _ => Except.ok t) (fun _ => Except.error "unused")
        (fun _ => Except.ok ())
        (fun i => if i = 0 then Except.error "" else Except.ok ()) []
        (RunInput.basic "Subj" "Body" ["a@x.com", "b@x.com"]) =
      Except.ok ([{ status := "ERROR", recipient_email_address := "a@x.com",
                    sender_email_address := "s@x.com", subject := "Subj",
                    plaintext_message_body := "Body", html_message_body := "",
                    attachment_filenames := "[]", error_message := "" },
                  { status := "OK", recipient_email_address := "b@x.com",
                    sender_email_address := "s@x.com", subject := "Subj",
                    plaintext_message_body := "Body", html_message_body := "",
                    attachment_filenames := "[]", error_message := "" }],
                 [Event.send "a@x.com" (some []), Event.send "b@x.com" (some [])]) ∧
    (2 : Nat) ≠ 1 :=
  ⟨rfl, by decide⟩

/-- Witness for C3's amended claim: a 2-row run whose first send fails
with message `boom` under `continue_on_error=true` yields 2 ledger rows
with row 0 marked `ERROR`. -/
theorem C3_continue_on_error_amended_witness :
    (sendLoop
        { continue_on_error := true, dry_run := false,
          client := { sender_email_address := "s@x.com", address_whitelist := [],
                      disable_attachments := false } }
        (prepBasic
          { sender_email_address := "s@x.com", address_whitelist := [],
            disable_attachments := false } "Subj" "Body" (fun _ => Except.ok ()) [])
        (fun i => if i = 0 then Except.error "boom" else Except.ok ())
        ["a@x.com", "b@x.com"] 0).1.length = 2 ∧
    Option.map LedgerRow.status
      ((sendLoop
        { continue_on_error := true, dry_run := false,
          client := { sender_email_address := "s@x.com", address_whitelist := [],
                      disable_attachments := false } }
        (prepBasic
          { sender_email_address := "s@x.com", address_whitelist := [],
            disable_attachments := false } "Subj" "Body" (fun _ => Except.ok ()) [])
        (fun i => if i = 0 then Except.error "boom" else Except.ok ())
        ["a@x.com", "b@x.com"] 0).1.get? 0) = some "ERROR" := by
  have h := (C3_continue_on_error_amended
    { continue_on_error := true, dry_run := false,
      client := { sender_email_address := "s@x.com", address_whitelist := [],
                  disable_attachments := false } }
    (prepBasic
      { sender_email_address := "s@x.com", address_whitelist := [],
        disable_attachments := false } "Subj" "Body" (fun _ => Except.ok ()) [])
    (fun i => if i = 0 then Except.error "boom" else Except.ok ())
    ["a@x.com", "b@x.com"] 0
    (fun i =>
      { email := { From := "s@x.com",
                   To := if i = 0 then "a@x.com" else "b@x.com",
                   Subject := "Subj", attachedFilenames := [] },
        rendered_plaintext_message := "Body",
        rendered_html_message := none,
        custom_attachments := [] })
    (fun _ => []) "boom" "unused-recipient"
    (by decide) rfl
    (fun j hj hjk => by
      have hj2 : j < 2 := by simpa using hj
      have hj1 : j = 1 := by omega
      subst hj1
      rfl)
    (fun j hj hjk => by
      have hj2 : j < 2 := by simpa using hj
      have hj1 : j = 1 := by omega
      subst hj1
      rfl)
    (Or.inr ⟨rfl, rfl⟩)).1 rfl
  exact ⟨h.1.trans (by decide), h.2.2⟩

end EmailSender
